import Mathlib

/-!
Verification development for the Kenan-Flagler-Portfolio flash-loan
arbitrage engine.  The embedding covers:

* the on-chain evaluator and execution path of
  `flashloan-base/FlashLoanArbitrageBot23.sol` (uint256 arithmetic is
  modelled over `Nat`; Solidity 0.8 reverts on overflow, so theorems
  about the evaluator carry bounds under which every intermediate value
  stays below 2^256 and the `Nat` semantics coincides with uint256);
* the off-chain scanner `flashloan-base/BlockScannerBot.cjs`
  (JavaScript doubles are idealized as exact rationals for the
  evaluator; a dedicated `JsPrice` type keeps the IEEE infinity that
  JavaScript division `1 / 0` produces, which matters for the
  price-inversion path);
* the block-listener scheduling state of `BlockScannerBot.cjs`
  (re-entrancy guard, log records, counters).
-/

/-! ## On-chain model: FlashLoanArbitrageBot23.sol -/

/-- Embedding of `_absDiff` (FlashLoanArbitrageBot23.sol line 295):
`(a > b) ? (a - b) : (b - a)` on uint256. -/
def absDiff (a b : Nat) : Nat :=
  if a > b then a - b else b - a

/-- Embedding of `_getAavePrice` (lines 256-264): reads the two oracle
prices, returns 0 when the USDC price is 0, otherwise the truncating
integer division `wethPrice / usdcPrice`. -/
def getAavePrice (wethPrice usdcPrice : Nat) : Nat :=
  if usdcPrice = 0 then 0 else wethPrice / usdcPrice

/-- Embedding of `_getPoolPrice` (lines 220-251).  The pool read is
abstracted into its inputs: whether the factory returned a pool
(`poolExists`), the pool's `sqrtPriceX96`, and whether `token0` differs
from `tokenA` (`invert`).  A zero raw price under inversion triggers the
early `return 0` of line 239, skipping the decimals fix.  All values are
small enough in the theorems below that uint256 never overflows. -/
def getPoolPriceSol (poolExists : Bool) (sqrtPriceX96 : Nat) (invert : Bool)
    (tokenADecimals tokenBDecimals : Nat) : Nat :=
  if poolExists = false then 0
  else
    let rawPrice := (sqrtPriceX96 * sqrtPriceX96) >>> 192
    if invert ∧ rawPrice = 0 then 0
    else
      let raw2 := if invert then 10 ^ 36 / rawPrice else rawPrice
      if tokenBDecimals > tokenADecimals then
        raw2 * 10 ^ (tokenBDecimals - tokenADecimals)
      else if tokenADecimals > tokenBDecimals then
        raw2 / 10 ^ (tokenADecimals - tokenBDecimals)
      else raw2

/-- Embedding of `checkArbOpportunity` (lines 189-215).  The two pool
prices and the two oracle asset prices are inputs (the pool and oracle
reads are external); the function mirrors the source branch for branch:
zero pool price or zero oracle ratio returns `(false, 0)`, otherwise the
basis-point metrics are computed with `absDiff` (the unsigned borrowing
advantage of line 206) and compared inclusively against the threshold
(line 212). -/
def checkArbOpportunity (uniPrice sushiPrice wethPrice usdcPrice arbThresholdBps : Nat) :
    Bool × Nat :=
  if uniPrice = 0 ∨ sushiPrice = 0 then (false, 0)
  else
    let cheapestDexPrice := if uniPrice < sushiPrice then uniPrice else sushiPrice
    let expensiveDexPrice := if uniPrice > sushiPrice then uniPrice else sushiPrice
    let aavePrice := getAavePrice wethPrice usdcPrice
    if aavePrice = 0 then (false, 0)
    else
      let BAinBps := absDiff cheapestDexPrice aavePrice * 10000 / cheapestDexPrice
      let DSinBps := (expensiveDexPrice - cheapestDexPrice) * 10000 / cheapestDexPrice
      let totalArbsbps := BAinBps + DSinBps
      (decide (totalArbsbps ≥ arbThresholdBps), totalArbsbps)

/-- Token balances relevant to the flash-loan sequence: the contract's
WETH and USDC balances and the Aave pool's WETH balance.  Everything
else is unchanged by the sequence. -/
structure ChainState where
  contractWeth : Nat
  contractUsdc : Nat
  poolWeth : Nat
  deriving DecidableEq, Repr

/-- Outcome of one borrow-swap-repay sequence, in the spec's taxonomy. -/
inductive ExecutionOutcome where
  | repaid (profit : Nat)
  | abortedNoProfit
  deriving DecidableEq, Repr

/-- Embedding of `executeOperation` (lines 138-184) as invoked by the
Aave pool during `flashLoanSimple` (so the caller/initiator/asset
guards of lines 145-147 hold).  `borrowed` is the state after the pool
transferred `amount` WETH in; `out1` and `out2` are the amounts realized
by the two swap legs at execution time.  Leg 1 spends `amount` WETH for
`out1` USDC; leg 2 spends the whole USDC balance for `out2` WETH; then
the must-profit check of line 174 either fails (`No arb profit`) or the
function returns the post-swap state together with the profit. -/
def executeOperation (borrowed : ChainState) (amount premium out1 out2 : Nat) :
    Except String (ChainState × Nat) :=
  let s1 : ChainState :=
    { borrowed with
      contractWeth := borrowed.contractWeth - amount
      contractUsdc := borrowed.contractUsdc + out1 }
  let s2 : ChainState :=
    { s1 with
      contractUsdc := 0
      contractWeth := s1.contractWeth + out2 }
  let finalWethBal := s2.contractWeth
  let totalRepay := amount + premium
  if finalWethBal > totalRepay then
    .ok (s2, finalWethBal - totalRepay)
  else
    .error "No arb profit"

/-- Embedding of the whole flash-loan transaction around
`pool.flashLoanSimple` (line 126): the pool transfers the principal to
the contract, runs `executeOperation`, and on success pulls back
principal plus premium; when `executeOperation` reverts, the ledger
undoes the entire transaction, so the pre-state is returned untouched
and the outcome is the no-profit abort. -/
def flashLoanSimple (s : ChainState) (amount premium out1 out2 : Nat) :
    ChainState × ExecutionOutcome :=
  let borrowed : ChainState :=
    { s with
      poolWeth := s.poolWeth - amount
      contractWeth := s.contractWeth + amount }
  match executeOperation borrowed amount premium out1 out2 with
  | .ok (s2, profit) =>
      ({ s2 with
          contractWeth := s2.contractWeth - (amount + premium)
          poolWeth := s2.poolWeth + (amount + premium) },
        .repaid profit)
  | .error _ => (s, .abortedNoProfit)

/-- Embedding of `executeFlashLoan` (lines 120-133) with its transaction
semantics: `onlyOwner` (line 41) reverts for a non-owner caller, the
on-chain gate (lines 122-123) reverts when `checkArbOpportunity` reports
no opportunity, and only then is the flash loan initiated.  A revert
leaves the chain state untouched and produces no outcome, encoded as
`(s, none)`.  Addresses are modelled as naturals. -/
def executeFlashLoan (sender owner : Nat)
    (uniPrice sushiPrice wethPrice usdcPrice arbThresholdBps : Nat)
    (s : ChainState) (flashAmount premium out1 out2 : Nat) :
    ChainState × Option ExecutionOutcome :=
  if sender ≠ owner then (s, none)
  else if (checkArbOpportunity uniPrice sushiPrice wethPrice usdcPrice arbThresholdBps).1
      = false then (s, none)
  else
    let r := flashLoanSimple s flashAmount premium out1 out2
    (r.1, some r.2)

/-! ## Off-chain model: BlockScannerBot.cjs -/

/-- Metrics record returned by `checkArbitrageOpportunity`
(BlockScannerBot.cjs lines 169-176). -/
structure CjsMetrics where
  uniPrice : ℚ
  sushiPrice : ℚ
  aavePrice : ℚ
  BApercent : ℚ
  DSpercent : ℚ
  totalArbsbps : ℚ
  deriving DecidableEq, Repr

/-- JavaScript falsiness of a nullable finite price: `null` and `0` are
falsy, every other number is truthy (the `!uniPrice` test of line
152). -/
def jsFalsy : Option ℚ → Bool
  | none => true
  | some q => decide (q = 0)

/-- Embedding of `getOracleRatio` (lines 135-147): the oracle quotes are
inputs; a non-positive quote throws `Invalid oracle prices`, otherwise
the rational reference ratio `wethPrice / usdcPrice` is returned. -/
def getOracleRatioCjs (usdcPrice wethPrice : ℚ) : Except String ℚ :=
  if usdcPrice ≤ 0 ∨ wethPrice ≤ 0 then .error "Invalid oracle prices"
  else .ok (wethPrice / usdcPrice)

/-- Embedding of `checkArbitrageOpportunity` (lines 149-177).  The two
pool prices arrive nullable (`getPoolPrice` returns `null` when no pool
exists) and the oracle read arrives as a possible failure (the
try/catch of lines 157-163 maps a throw to `return null`).  Doubles are
idealized as exact rationals.  The borrowing advantage of line 165 is
the signed `((cheapest - aavePrice) / cheapest) * 100`. -/
def checkArbitrageOpportunity (uniPrice sushiPrice : Option ℚ)
    (oracle : Except String ℚ) : Option CjsMetrics :=
  if jsFalsy uniPrice ∨ jsFalsy sushiPrice then none
  else
    match uniPrice, sushiPrice, oracle with
    | some u, some s, .ok aavePrice =>
        let cheapest := min u s
        let expensive := max u s
        let BApercent := (cheapest - aavePrice) / cheapest * 100
        let DSpercent := (expensive - cheapest) / cheapest * 100
        let totalArbsbps := (BApercent + DSpercent) * 100
        some ⟨u, s, aavePrice, BApercent, DSpercent, totalArbsbps⟩
    | _, _, _ => none

/-- Action decision of `handleBlock` (lines 208-210): the flash loan is
triggered exactly when the computed `totalArbsbps` reaches the
threshold, inclusively; without data no action is taken. -/
def flashloanAction (data : Option CjsMetrics) (thresholdBps : ℚ) : Bool :=
  match data with
  | none => false
  | some m => decide (m.totalArbsbps ≥ thresholdBps)

/-- Result of the JavaScript price pipeline of `getPoolPrice`: either a
finite double (idealized as a rational) or the IEEE positive infinity
that `1 / 0` evaluates to in JavaScript. -/
inductive JsPrice where
  | num (q : ℚ)
  | infinity
  deriving DecidableEq, Repr

/-- JavaScript division `1 / q`: infinity when `q = 0` (IEEE semantics
of the unguarded `rawPrice = 1 / rawPrice` of line 129), the exact
reciprocal otherwise. -/
def jsInv (q : ℚ) : JsPrice :=
  if q = 0 then .infinity else .num (1 / q)

/-- Multiplication of a JavaScript price by the positive decimal
adjustment factor (line 131-132): infinity stays infinity. -/
def jsScale (p : JsPrice) (adjust : ℚ) : JsPrice :=
  match p with
  | .num q => .num (q * adjust)
  | .infinity => .infinity

/-- Embedding of `getPoolPrice` (BlockScannerBot.cjs lines 114-133).
The factory read is abstracted as `poolExists`; `invert` is the token
ordering test of line 127 (token0 = USDC and token1 = WETH, the base
asset second).  The raw price is `(sqrtPriceX96 / 2^96)^2`; inversion
uses JavaScript division, so a zero raw price yields infinity rather
than an error; the result is scaled by `10^(18-6)`. -/
def getPoolPrice (poolExists : Bool) (sqrtPriceX96 : ℚ) (invert : Bool) :
    Option JsPrice :=
  if poolExists = false then none
  else
    let rawPrice : ℚ := (sqrtPriceX96 / 2 ^ 96) ^ 2
    let p := if invert then jsInv rawPrice else .num rawPrice
    some (jsScale p (10 ^ 12))

/-- JavaScript truthiness of a nullable pool price as the caller's
`!uniPrice` check sees it: `null` and `0` are falsy; infinity is
truthy, so it passes the availability check. -/
def jsTruthy : Option JsPrice → Bool
  | none => false
  | some (.num q) => decide (q ≠ 0)
  | some .infinity => true

/-! ## Scheduler model: block listener of BlockScannerBot.cjs -/

/-- Outcome of one evaluation cycle's body inside `handleBlock`:
no pool data (lines 192-198), a completed scan with its action flag
(lines 200-235), or a thrown error caught by the catch of lines
236-238. -/
inductive CycleOutcome where
  | noData
  | scanned (triggered : Bool)
  | monitorError
  deriving DecidableEq, Repr

/-- Log record appended by one cycle (one line per cycle). -/
inductive CycleRecord where
  | noData (blockNumber : Nat)
  | scanned (blockNumber : Nat) (triggered : Bool)
  | monitorError
  deriving DecidableEq, Repr

/-- Mutable state of the block listener (lines 180-182): the re-entrancy
guard `processingBlock`, the two counters, and the append-only log. -/
structure SchedState where
  processingBlock : Bool
  opportunityCount : Nat
  flashloanCount : Nat
  log : List CycleRecord
  deriving DecidableEq, Repr

/-- Arrival of a block notification (lines 184-186): when a cycle is
already in progress the notification is dropped before any logging or
queuing (`if (processingBlock) return`), leaving the state untouched;
otherwise the guard is acquired and the cycle starts.  The boolean
reports whether a cycle started. -/
def handleBlockArrive (s : SchedState) : SchedState × Bool :=
  if s.processingBlock then (s, false)
  else ({ s with processingBlock := true }, true)

/-- Completion of the in-flight cycle: exactly one record is appended
(lines 193-195, 226-234 or 238), the counters advance per the outcome
(lines 200, 211), and the finally block of lines 239-241 releases the
guard on every exit path, the error path included. -/
def handleBlockFinish (s : SchedState) (blockNumber : Nat) (o : CycleOutcome) :
    SchedState :=
  let s1 :=
    match o with
    | .noData => { s with log := s.log ++ [CycleRecord.noData blockNumber] }
    | .scanned triggered =>
        { s with
          opportunityCount := s.opportunityCount + 1
          flashloanCount := s.flashloanCount + (if triggered then 1 else 0)
          log := s.log ++ [CycleRecord.scanned blockNumber triggered] }
    | .monitorError => { s with log := s.log ++ [CycleRecord.monitorError] }
  { s1 with processingBlock := false }

/-! ## Spec-modelled venue price reader with range validity -/

/-- Modelled from the spec: the price-derivation code under src/ has no
active-range validity handling (the historical out-of-range defect
lived in the redacted TriangleArb scanner, not shipped under src/);
sections 4.1 and 6 of the spec give the pool state as a pair of the
square-root price ratio and an `activeRangeValid` flag. -/
structure PoolStateSpec where
  sqrtPriceRatio : Nat
  activeRangeValid : Bool
  deriving DecidableEq, Repr

/-- Price-derivation failures named by the spec (section 4.1). -/
inductive PriceError where
  | priceOutOfRange
  | divisionByZero
  deriving DecidableEq, Repr

/-- Modelled from the spec: section 4.1's price math contract.  A pool
state flagged out of range fails with `PriceOutOfRange` before any
number is produced; squaring and descaling the ratio gives the raw
price; inversion (base asset second in the venue's native ordering)
guards a zero raw price with `DivisionByZero`; decimal rescaling
multiplies or divides by the power-of-ten gap. -/
def derivePriceSpec (st : PoolStateSpec) (invert : Bool)
    (decimalsA decimalsB : Nat) : Except PriceError ℚ :=
  if st.activeRangeValid = false then .error .priceOutOfRange
  else
    let rawPrice : ℚ := ((st.sqrtPriceRatio : ℚ) / 2 ^ 96) ^ 2
    if invert ∧ rawPrice = 0 then .error .divisionByZero
    else
      let raw2 := if invert then 1 / rawPrice else rawPrice
      if decimalsB > decimalsA then .ok (raw2 * 10 ^ (decimalsB - decimalsA))
      else if decimalsA > decimalsB then .ok (raw2 / 10 ^ (decimalsA - decimalsB))
      else .ok raw2

/-- Modelled from the spec: section 4.2's venue reader, which maps every
price-math failure to `Unavailable` (`none`), never a crash and never a
sentinel number. -/
def readVenuePriceSpec (st : PoolStateSpec) (invert : Bool)
    (decimalsA decimalsB : Nat) : Option ℚ :=
  match derivePriceSpec st invert decimalsA decimalsB with
  | .ok q => some q
  | .error _ => none

/-! ## Theorems -/

/-- Shared shape lemma: when both pool prices and the oracle ratio are
nonzero, `checkArbOpportunity` reaches the metric computation and its
trigger flag is exactly the inclusive comparison of the returned score
against the threshold. -/
theorem checkArbOpportunity_trigger_eq (uni sushi w p thr : Nat)
    (hu : uni ≠ 0) (hs : sushi ≠ 0) (ha : getAavePrice w p ≠ 0) :
    (checkArbOpportunity uni sushi w p thr).1
      = decide (thr ≤ (checkArbOpportunity uni sushi w p thr).2) := by
  have hcond : ¬(uni = 0 ∨ sushi = 0) := by
    rintro (h | h)
    · exact hu h
    · exact hs h
  simp only [checkArbOpportunity, if_neg hcond, if_neg ha]

/-- C1: the borrow-swap-repay sequence commits only when the final
balance of the borrowed asset strictly exceeds the borrowed amount plus
the premium; otherwise the `No arb profit` revert undoes the whole
transaction, the chain state is returned exactly as it was before the
borrow, and the outcome is the no-profit abort. -/
theorem flashLoanSimple_must_profit_atomic
    (s : ChainState) (amount premium out1 out2 : Nat) :
    (s.contractWeth + out2 ≤ amount + premium →
      flashLoanSimple s amount premium out1 out2
        = (s, ExecutionOutcome.abortedNoProfit)) ∧
    (amount + premium < s.contractWeth + out2 →
      (flashLoanSimple s amount premium out1 out2).2
        = ExecutionOutcome.repaid (s.contractWeth + out2 - (amount + premium))) := by
  constructor
  · intro h
    simp only [flashLoanSimple, executeOperation, Nat.add_sub_cancel]
    rw [if_neg (by omega)]
  · intro h
    simp only [flashLoanSimple, executeOperation, Nat.add_sub_cancel]
    rw [if_pos (by omega)]

/-- C1 witness: with 5 WETH of pre-existing balance, a borrow of 10 at
premium 1, the sequence aborts to the exact pre-state when the second
leg realizes only 6 WETH (final 11 le 11) and repays with profit 24
when it realizes 30. -/
theorem flashLoanSimple_must_profit_atomic_w :
    flashLoanSimple ⟨5, 0, 100⟩ 10 1 20000 6
      = (⟨5, 0, 100⟩, ExecutionOutcome.abortedNoProfit) ∧
    (flashLoanSimple ⟨5, 0, 100⟩ 10 1 20000 30).2 = ExecutionOutcome.repaid 24 :=
  ⟨(flashLoanSimple_must_profit_atomic ⟨5, 0, 100⟩ 10 1 20000 6).1 (by decide),
   (flashLoanSimple_must_profit_atomic ⟨5, 0, 100⟩ 10 1 20000 30).2 (by decide)⟩

/-- C2: divergence of the on-chain evaluator from the signed
borrowing-advantage formula.  At pool prices 3000/3000 and oracle ratio
3050, the contract's `_absDiff`-based metric is +166 bps and the
evaluator triggers at threshold 11, while the signed formula of
BlockScannerBot.cjs line 165 (adopted by the spec as authoritative)
gives -5/3 percent, total -500/3 bps, which is negative and below the
threshold. -/
theorem checkArbOpportunity_unsigned_divergence :
    checkArbOpportunity 3000 3000 3050 1 11 = (true, 166) ∧
    checkArbitrageOpportunity (some 3000) (some 3000) (Except.ok 3050)
      = some ⟨3000, 3000, 3050, -5/3, 0, -500/3⟩ ∧
    (-5 : ℚ) / 3 < 0 ∧ (-500 : ℚ) / 3 < 11 := by
  refine ⟨by decide, ?_, by norm_num, by norm_num⟩
  simp [checkArbitrageOpportunity, jsFalsy]
  norm_num

/-- C3: the trigger boundary is inclusive.  On the on-chain evaluator,
whenever the metric computation is reached (both pool prices and the
oracle ratio nonzero, all prices inside the range where uint256
arithmetic cannot overflow) a returned score equal to the threshold
triggers and a score strictly below does not; on the off-chain scanner,
`handleBlock` triggers the flash loan exactly when `totalArbsbps`
reaches the threshold, inclusively. -/
theorem trigger_threshold_inclusive
    (uni sushi w p thr : Nat) (m : CjsMetrics) (q : ℚ)
    (hu : uni ≠ 0) (hs : sushi ≠ 0) (ha : getAavePrice w p ≠ 0)
    (hub : uni < 2 ^ 240) (hsb : sushi < 2 ^ 240) (hwb : w < 2 ^ 240) :
    ((checkArbOpportunity uni sushi w p thr).2 = thr →
      (checkArbOpportunity uni sushi w p thr).1 = true) ∧
    ((checkArbOpportunity uni sushi w p thr).2 < thr →
      (checkArbOpportunity uni sushi w p thr).1 = false) ∧
    (m.totalArbsbps = q → flashloanAction (some m) q = true) ∧
    (m.totalArbsbps < q → flashloanAction (some m) q = false) := by
  refine ⟨?_, ?_, ?_, ?_⟩
  · intro h
    rw [checkArbOpportunity_trigger_eq uni sushi w p thr hu hs ha, h]
    simp
  · intro h
    rw [checkArbOpportunity_trigger_eq uni sushi w p thr hu hs ha]
    exact decide_eq_false (by omega)
  · intro h
    simp [flashloanAction, h]
  · intro h
    simp only [flashloanAction]
    exact decide_eq_false (not_le.mpr h)

/-- C3 witness: at pool prices 3000/3010 and oracle ratio 2995 the
on-chain score is 49 bps, so threshold 49 triggers and threshold 50
does not; the off-chain action decision triggers at an exactly-met
threshold of 500 bps. -/
theorem trigger_threshold_inclusive_w :
    (checkArbOpportunity 3000 3010 2995 1 49).1 = true ∧
    (checkArbOpportunity 3000 3010 2995 1 50).1 = false ∧
    flashloanAction (some ⟨3000, 3010, 2995, 5/3, 10/3, 500⟩) 500 = true :=
  ⟨(trigger_threshold_inclusive 3000 3010 2995 1 49 ⟨0, 0, 0, 0, 0, 0⟩ 0
      (by decide) (by decide) (by decide) (by decide) (by decide) (by decide)).1
      (by decide),
   (trigger_threshold_inclusive 3000 3010 2995 1 50 ⟨0, 0, 0, 0, 0, 0⟩ 0
      (by decide) (by decide) (by decide) (by decide) (by decide) (by decide)).2.1
      (by decide),
   (trigger_threshold_inclusive 1 1 1 1 1 ⟨3000, 3010, 2995, 5/3, 10/3, 500⟩ 500
      (by decide) (by decide) (by decide) (by decide) (by decide) (by decide)).2.2.1
      rfl⟩

/-- C9: the on-chain oracle ratio is the truncating integer division
`wethPrice / usdcPrice`, so any oracle state with positive WETH price
strictly below the USDC price yields ratio exactly 0, which
`checkArbOpportunity` treats as oracle-unavailable, returning
`(false, 0)` regardless of the pool prices. -/
theorem getAavePrice_truncates_to_zero (w u uni sushi thr : Nat)
    (h1 : 0 < w) (h2 : w < u) :
    getAavePrice w u = 0 ∧ checkArbOpportunity uni sushi w u thr = (false, 0) := by
  have hg : getAavePrice w u = 0 := by
    unfold getAavePrice
    rw [if_neg (by omega)]
    exact Nat.div_eq_of_lt h2
  refine ⟨hg, ?_⟩
  by_cases hc : uni = 0 ∨ sushi = 0
  · simp [checkArbOpportunity, hc]
  · simp [checkArbOpportunity, hc, hg]

/-- C9 witness: WETH quoted 1, USDC quoted 2 gives ratio 0 and no
opportunity at pool prices 3000/3010. -/
theorem getAavePrice_truncates_to_zero_w :
    getAavePrice 1 2 = 0 ∧ checkArbOpportunity 3000 3010 1 2 11 = (false, 0) :=
  getAavePrice_truncates_to_zero 1 2 3000 3010 11 (by decide) (by decide)

/-- C4: with fewer than two usable venue prices, or an unavailable
oracle, both evaluators report no opportunity.  The off-chain scanner
returns `null` when either nullable pool price is falsy or the oracle
read threw; the on-chain evaluator returns `(false, 0)` when either
pool price or the oracle ratio is zero, producing no metrics. -/
theorem fewer_prices_no_opportunity :
    (∀ (u s : Option ℚ) (o : Except String ℚ),
        jsFalsy u = true ∨ jsFalsy s = true →
        checkArbitrageOpportunity u s o = none) ∧
    (∀ (u s : Option ℚ) (e : String),
        checkArbitrageOpportunity u s (Except.error e) = none) ∧
    (∀ uni sushi w p thr : Nat, uni = 0 ∨ sushi = 0 →
        checkArbOpportunity uni sushi w p thr = (false, 0)) ∧
    (∀ uni sushi w p thr : Nat, getAavePrice w p = 0 →
        checkArbOpportunity uni sushi w p thr = (false, 0)) := by
  refine ⟨?_, ?_, ?_, ?_⟩
  · intro u s o h
    unfold checkArbitrageOpportunity
    rw [if_pos h]
  · intro u s e
    unfold checkArbitrageOpportunity
    split
    · rfl
    · rcases u with _ | qu <;> rcases s with _ | qs <;> rfl
  · intro uni sushi w p thr h
    unfold checkArbOpportunity
    rw [if_pos h]
  · intro uni sushi w p thr h
    by_cases hc : uni = 0 ∨ sushi = 0
    · simp [checkArbOpportunity, hc]
    · simp [checkArbOpportunity, hc, h]

/-- C4 witness: a missing Uniswap price, an oracle failure, a zero
on-chain pool price and a zero on-chain oracle ratio each force the
no-opportunity result. -/
theorem fewer_prices_no_opportunity_w :
    checkArbitrageOpportunity none (some 5) (Except.ok 1) = none ∧
    checkArbitrageOpportunity (some 3) (some 5) (Except.error "x") = none ∧
    checkArbOpportunity 0 5 1 1 11 = (false, 0) ∧
    checkArbOpportunity 3 5 0 1 11 = (false, 0) :=
  ⟨fewer_prices_no_opportunity.1 none (some 5) (Except.ok 1) (Or.inl rfl),
   fewer_prices_no_opportunity.2.1 (some 3) (some 5) "x",
   fewer_prices_no_opportunity.2.2.1 0 5 1 1 11 (Or.inl rfl),
   fewer_prices_no_opportunity.2.2.2 3 5 0 1 11 (by decide)⟩

/-- C5: a pool state flagged outside its valid active range makes the
spec-modelled price derivation fail with `PriceOutOfRange` before any
number is produced, and the venue reader maps that failure to
unavailable for the round, never a zero price. -/
theorem activeRangeInvalid_yields_unavailable (st : PoolStateSpec)
    (invert : Bool) (dA dB : Nat) (h : st.activeRangeValid = false) :
    derivePriceSpec st invert dA dB = Except.error PriceError.priceOutOfRange ∧
    readVenuePriceSpec st invert dA dB = none := by
  have hd : derivePriceSpec st invert dA dB
      = Except.error PriceError.priceOutOfRange := by
    unfold derivePriceSpec
    rw [if_pos h]
  refine ⟨hd, ?_⟩
  unfold readVenuePriceSpec
  rw [hd]

/-- C5 witness: a concrete out-of-range pool state is reported
unavailable by the spec-modelled reader. -/
theorem activeRangeInvalid_yields_unavailable_w :
    derivePriceSpec ⟨77, false⟩ true 6 18 = Except.error PriceError.priceOutOfRange ∧
    readVenuePriceSpec ⟨77, false⟩ true 6 18 = none :=
  activeRangeInvalid_yields_unavailable ⟨77, false⟩ true 6 18 rfl

/-- C6: divergence of the off-chain inversion path from the guarded
behavior.  With a zero square-root price on a pool whose token ordering
puts the base asset second, the scanner's unguarded `1 / rawPrice`
produces JavaScript infinity, which is truthy and therefore passes the
caller's availability check as a usable price; the on-chain
`_getPoolPrice` guards the same case and returns the unavailable
sentinel 0. -/
theorem unguarded_inversion_divergence :
    getPoolPrice true 0 true = some JsPrice.infinity ∧
    jsTruthy (getPoolPrice true 0 true) = true ∧
    getPoolPriceSol true 0 true 18 6 = 0 := by
  have h1 : getPoolPrice true 0 true = some JsPrice.infinity := by
    simp [getPoolPrice, jsInv, jsScale]
  exact ⟨h1, by rw [h1]; rfl, by decide⟩

/-- C7: the block listener drops a notification that arrives while a
cycle is in progress, with no log record and no queuing (its state is
returned untouched); a cycle only ever starts from the idle state; the
guard is released by the finally block on every cycle outcome, the error
path included; and a completed cycle never blocks the next arrival. -/
theorem reentrancy_guard_drop_release (s : SchedState) (bn : Nat)
    (o : CycleOutcome) :
    (s.processingBlock = true → handleBlockArrive s = (s, false)) ∧
    ((handleBlockArrive s).2 = true → s.processingBlock = false) ∧
    (handleBlockFinish s bn o).processingBlock = false ∧
    (handleBlockArrive (handleBlockFinish s bn o)).2 = true := by
  have hf : (handleBlockFinish s bn o).processingBlock = false := by
    cases o <;> simp [handleBlockFinish]
  refine ⟨?_, ?_, hf, ?_⟩
  · intro h
    simp [handleBlockArrive, h]
  · intro h
    by_cases hp : s.processingBlock = true
    · simp [handleBlockArrive, hp] at h
    · simpa using hp
  · simp [handleBlockArrive, hf]

/-- C7 witness: a notification arriving during a busy cycle leaves the
state exactly unchanged with no record, and after an error-terminated
cycle the guard is released and the next arrival starts a cycle. -/
theorem reentrancy_guard_drop_release_w :
    handleBlockArrive ⟨true, 0, 0, []⟩ = (⟨true, 0, 0, []⟩, false) ∧
    (handleBlockFinish ⟨true, 2, 1, []⟩ 7 CycleOutcome.monitorError).processingBlock
      = false ∧
    (handleBlockArrive
      (handleBlockFinish ⟨true, 2, 1, []⟩ 7 CycleOutcome.monitorError)).2 = true :=
  ⟨(reentrancy_guard_drop_release ⟨true, 0, 0, []⟩ 0 CycleOutcome.noData).1 rfl,
   (reentrancy_guard_drop_release ⟨true, 2, 1, []⟩ 7 CycleOutcome.monitorError).2.2.1,
   (reentrancy_guard_drop_release ⟨true, 2, 1, []⟩ 7 CycleOutcome.monitorError).2.2.2⟩

/-- C8: a non-positive oracle quote makes the off-chain oracle reader
throw rather than substitute a reference price, and the throw forces the
no-opportunity result for the cycle; on-chain, a zero quote for either
asset makes the oracle ratio 0, which forces `(false, 0)`. -/
theorem oracle_nonpositive_no_opportunity :
    (∀ u w : ℚ, u ≤ 0 ∨ w ≤ 0 →
        getOracleRatioCjs u w = Except.error "Invalid oracle prices") ∧
    (∀ (p q : Option ℚ) (e : String),
        checkArbitrageOpportunity p q (Except.error e) = none) ∧
    (∀ w p uni sushi thr : Nat, w = 0 ∨ p = 0 →
        getAavePrice w p = 0 ∧ checkArbOpportunity uni sushi w p thr = (false, 0)) := by
  refine ⟨?_, ?_, ?_⟩
  · intro u w h
    unfold getOracleRatioCjs
    rw [if_pos h]
  · intro p q e
    unfold checkArbitrageOpportunity
    split
    · rfl
    · rcases p with _ | qp <;> rcases q with _ | qq <;> rfl
  · intro w p uni sushi thr h
    have hg : getAavePrice w p = 0 := by
      rcases h with h | h
      · subst h
        unfold getAavePrice
        split
        · rfl
        · exact Nat.zero_div _
      · subst h
        simp [getAavePrice]
    refine ⟨hg, ?_⟩
    by_cases hc : uni = 0 ∨ sushi = 0
    · simp [checkArbOpportunity, hc]
    · simp [checkArbOpportunity, hc, hg]

/-- C8 witness: a zero USDC oracle quote throws and the thrown error
forces the null cycle result; on-chain a zero WETH quote gives ratio 0
and no opportunity. -/
theorem oracle_nonpositive_no_opportunity_w :
    getOracleRatioCjs 0 3000 = Except.error "Invalid oracle prices" ∧
    checkArbitrageOpportunity (some 3000) (some 3010)
      (Except.error "Invalid oracle prices") = none ∧
    (getAavePrice 0 5 = 0 ∧ checkArbOpportunity 3000 3010 0 5 11 = (false, 0)) :=
  ⟨oracle_nonpositive_no_opportunity.1 0 3000 (Or.inl le_rfl),
   oracle_nonpositive_no_opportunity.2.1 (some 3000) (some 3010)
     "Invalid oracle prices",
   oracle_nonpositive_no_opportunity.2.2 0 5 3000 3010 11 (Or.inl rfl)⟩

/-- C10: `executeFlashLoan` reverts with the chain state untouched and
no borrow initiated whenever the caller is not the owner or the on-chain
check reports no opportunity, and a flash loan is initiated exactly when
both the owner check and the on-chain gate pass (within the price range
where uint256 arithmetic cannot overflow). -/
theorem executeFlashLoan_gating (sender owner uni sushi w p thr : Nat)
    (s : ChainState) (flashAmount premium out1 out2 : Nat)
    (hub : uni < 2 ^ 240) (hsb : sushi < 2 ^ 240) (hwb : w < 2 ^ 240) :
    (sender ≠ owner ∨ (checkArbOpportunity uni sushi w p thr).1 = false →
      executeFlashLoan sender owner uni sushi w p thr s flashAmount premium out1 out2
        = (s, none)) ∧
    ((executeFlashLoan sender owner uni sushi w p thr s flashAmount
        premium out1 out2).2 ≠ none
      ↔ sender = owner ∧ (checkArbOpportunity uni sushi w p thr).1 = true) := by
  by_cases h1 : sender = owner
  · cases hb : (checkArbOpportunity uni sushi w p thr).1 with
    | false =>
        constructor
        · intro _
          simp [executeFlashLoan, h1, hb]
        · simp [executeFlashLoan, h1, hb]
    | true =>
        constructor
        · rintro (h | h)
          · exact absurd h1 h
          · simp [hb] at h
        · simp [executeFlashLoan, h1, hb]
  · constructor
    · intro _
      simp [executeFlashLoan, h1]
    · simp [executeFlashLoan, h1]

/-- C10 witness: a non-owner call leaves the state untouched with no
borrow, and an owner call under the triggering prices of the reference
deployment initiates the loan. -/
theorem executeFlashLoan_gating_w :
    executeFlashLoan 1 2 3000 3010 2995 1 11 ⟨5, 0, 100⟩ 10 1 20000 30
      = (⟨5, 0, 100⟩, none) ∧
    (executeFlashLoan 2 2 3000 3010 2995 1 11 ⟨5, 0, 100⟩ 10 1 20000 30).2 ≠ none :=
  ⟨(executeFlashLoan_gating 1 2 3000 3010 2995 1 11 ⟨5, 0, 100⟩ 10 1 20000 30
      (by decide) (by decide) (by decide)).1 (Or.inl (by decide)),
   (executeFlashLoan_gating 2 2 3000 3010 2995 1 11 ⟨5, 0, 100⟩ 10 1 20000 30
      (by decide) (by decide) (by decide)).2.mpr ⟨rfl, by decide⟩⟩
